import Mathlib

/-!
Verification model of the jsoncons core excerpt: the tagged-union value
layer of src/jsoncons/json.hpp (variant, basic_json, json_proxy) and the
input-source layer of include/jsoncons/source.hpp (string_source,
bytes_source, iterator_source, binary_iterator_source, stream_source,
source_reader).

Conventions of the shallow embedding:
* characters are Lean Char, byte units are Nat; machine integers are
  Int/Nat (the verified claims never exercise 64-bit overflow, except in
  the cross-signedness equality comparison where the uint64 conversion is
  made explicit with mod 2^64);
* C++ doubles are modelled by finite rationals; the quiet-NaN value
  returned by as_double on a null value is represented by an explicit
  DoubleVal.nan constructor;
* functions that throw in C++ return Except JErr;
* stateful member functions take the object value and return the updated
  object value alongside their result.
-/

namespace Jsoncons

/-- Tags of enum value_types::value_types_t, in declaration order.
The first seven enumerators (through null_t) are the "simple types". -/
inductive ValueType where
  | empty_object_t
  | small_string_t
  | double_t
  | integer_t
  | uinteger_t
  | bool_t
  | null_t
  | string_t
  | object_t
  | array_t
  | any_t
deriving DecidableEq, Repr

/-- is_simple(type): type < value_types::string_t in enumeration order. -/
def is_simple (t : ValueType) : Bool :=
  match t with
  | .empty_object_t | .small_string_t | .double_t | .integer_t
  | .uinteger_t | .bool_t | .null_t => true
  | .string_t | .object_t | .array_t | .any_t => false

/-- Result of basic_json::as_double: either a finite double (modelled as a
rational) or the quiet NaN produced for the null tag. -/
inductive DoubleVal where
  | num (q : ℚ)
  | nan
deriving DecidableEq, Repr

/-- Errors thrown by the value layer: std::out_of_range versus the
std::runtime_error used for tag mismatches ("Not an object", "Not an
integer", ...). -/
inductive JErr where
  | outOfRange
  | typeMismatch
deriving DecidableEq, Repr

/-- The payload-carrying variant of basic_json.  One constructor per tag of
value_types; string payloads record their character content (the
small-string length byte is the list length), arrays hold their elements
in order and objects their name/value members in order.  The type-erased
serializable_any payload content is outside the excerpted core and is
abstracted to a bare constructor. -/
inductive JValue where
  | null
  | emptyObject
  | boolean (b : Bool)
  | integer (i : Int)
  | uinteger (u : Nat)
  | double (q : ℚ)
  | smallString (s : List Char)
  | string (s : List Char)
  | array (xs : List JValue)
  | object (ms : List (String × JValue))
  | anyVal
deriving Repr, Inhabited

/-- The tag (variant::type_) of a value. -/
def typeOf : JValue → ValueType
  | .null => .null_t
  | .emptyObject => .empty_object_t
  | .boolean _ => .bool_t
  | .integer _ => .integer_t
  | .uinteger _ => .uinteger_t
  | .double _ => .double_t
  | .smallString _ => .small_string_t
  | .string _ => .string_t
  | .array _ => .array_t
  | .object _ => .object_t
  | .anyVal => .any_t

/-- variant::is_null(): type_ == value_types::null_t. -/
def is_null (v : JValue) : Bool := typeOf v == ValueType.null_t

/-- variant::is_string(): (type_ == string_t) | (type_ == small_string_t). -/
def isStringTag (v : JValue) : Bool :=
  (typeOf v == ValueType.string_t) || (typeOf v == ValueType.small_string_t)

/-- Width of one character unit; the verified instantiation is the
single-byte char layout of the spec's example. -/
def charSize : Nat := 1

/-- variant::small_string_capacity = sizeof(int64_t)/sizeof(char_type) - 1:
7 units for single-byte characters. -/
def small_string_capacity : Nat := 8 / charSize - 1

/-- variant(): type_(value_types::empty_object_t), no payload written. -/
def variantDefault : JValue := .emptyObject

/-- variant(null_type): type_(value_types::null_t). -/
def variantOfNull : JValue := .null

/-- variant(bool,Alloc): type_(value_types::bool_t). -/
def variantOfBool (b : Bool) : JValue := .boolean b

/-- variant(int64_t,Alloc): type_(value_types::integer_t). -/
def variantOfInteger (i : Int) : JValue := .integer i

/-- variant(uint64_t,Alloc): type_(value_types::uinteger_t). -/
def variantOfUinteger (u : Nat) : JValue := .uinteger u

/-- variant(double,Alloc): type_(value_types::double_t). -/
def variantOfDouble (q : ℚ) : JValue := .double q

/-- variant(const string_type&, const Alloc&): a string longer than
small_string_capacity becomes a heap string_t (create_string_data copies
the characters into a fresh allocation), otherwise a small_string_t whose
bytes are copied inline. -/
def variantOfString (s : List Char) : JValue :=
  if s.length > small_string_capacity then .string s else .smallString s

/-- basic_json(): default-initializes var_, i.e. variant(). -/
def basicJsonDefault : JValue := variantDefault

/-- variant::swap(rhs) on two distinct objects: swaps type_,
small_string_length_ and the value_ union; returns the new contents of
(this, rhs). -/
def variantSwap (a b : JValue) : JValue × JValue := (b, a)

/-- variant(variant&& var): initializes this to type_(value_types::null_t)
and then swap(var); returns (constructed value, moved-from source). -/
def variantMoveConstruct (src : JValue) : JValue × JValue :=
  variantSwap JValue.null src

/-- variant::operator=(variant&& val) for this != &val: val.swap(*this);
returns (new target contents, new source contents).
basic_json::operator=(basic_json&&) forwards here via var_ = move(rhs.var_). -/
def variantMoveAssign (self val : JValue) : JValue × JValue :=
  let p := variantSwap val self
  (p.2, p.1)

/-- Truncation-toward-zero of a rational, the behaviour of C++
static_cast<int64_t>(double) in-range. -/
def ratTruncToInt (q : ℚ) : Int := Int.tdiv q.num (q.den : Int)

/-- basic_json::as_integer(): numeric tags convert (double truncates
toward zero, bool becomes 0/1); every other tag throws
runtime_error("Not an integer"). -/
def as_integer : JValue → Except JErr Int
  | .double q => .ok (ratTruncToInt q)
  | .integer i => .ok i
  | .uinteger u => .ok (u : Int)
  | .boolean b => .ok (if b then 1 else 0)
  | _ => .error .typeMismatch

/-- basic_json::as_uinteger(): numeric tags convert (the int64 and the
truncated double are reinterpreted mod 2^64 as by static_cast<uint64_t>,
bool becomes 0/1); every other tag throws runtime_error("Not an unsigned
integer"). -/
def as_uinteger : JValue → Except JErr Nat
  | .double q => .ok ((Int.emod (ratTruncToInt q) (2 ^ 64)).toNat)
  | .integer i => .ok ((Int.emod i (2 ^ 64)).toNat)
  | .uinteger u => .ok u
  | .boolean b => .ok (if b then 1 else 0)
  | _ => .error .typeMismatch

/-- basic_json::as_double(): double_t returns the payload, the two integer
tags convert, null_t returns std::numeric_limits<double>::quiet_NaN(), and
every other tag throws runtime_error("Not a double"). -/
def as_double : JValue → Except JErr DoubleVal
  | .double q => .ok (.num q)
  | .integer i => .ok (.num (i : ℚ))
  | .uinteger u => .ok (.num (u : ℚ))
  | .null => .ok .nan
  | _ => .error .typeMismatch

/-- basic_json::as_string() with no format argument: the two string tags
return the stored characters; every other tag delegates to the external
serializer via to_string(), which is outside the excerpted core and is
represented by none. -/
def as_string : JValue → Option (List Char)
  | .smallString s => some s
  | .string s => some s
  | _ => none

/-- Modelled from the spec: the json_object container of
json_structures.hpp is an external collaborator (spec section 6): an
ordered collection of name/value members supporting key lookup that
returns an end-sentinel on a miss.  Lookup returns the value of the first
member carrying the key. -/
def objFind (ms : List (String × JValue)) (name : String) : Option JValue :=
  match ms with
  | [] => none
  | (k, v) :: rest => if k = name then some v else objFind rest name

/-- Modelled from the spec: hinted insertion on the external json_object
container (object::set(hint, name, value)).  If the key is present its
value is replaced in place; otherwise a new member is inserted.  The
spec leaves the ordering policy of the container open (spec section 9,
open question), so a missing key is appended; none of the verified
claims depends on the insertion position. -/
def objSet (ms : List (String × JValue)) (name : String) (value : JValue) :
    List (String × JValue) :=
  match ms with
  | [] => [(name, value)]
  | (k, v) :: rest =>
      if k = name then (k, value) :: rest else (k, v) :: objSet rest name value

/-- basic_json::at(const string_type&): empty_object_t throws
out_of_range("not found"); object_t looks the key up and throws
out_of_range when find returns the end sentinel; every other tag throws
runtime_error("Attempting to get %s from a value that is not an object").
The function mutates nothing (it returns a reference into the existing
container), which the pure signature makes explicit. -/
def atName (v : JValue) (name : String) : Except JErr JValue :=
  match v with
  | .emptyObject => .error .outOfRange
  | .object ms =>
      match objFind ms name with
      | some child => .ok child
      | none => .error .outOfRange
  | _ => .error .typeMismatch

/-- basic_json::create_object_implicitly(): overwrites the tag with
object_t and installs a freshly allocated empty object container. -/
def create_object_implicitly (_v : JValue) : JValue := .object []

/-- basic_json::operator[](const string_type&) (non-const): on
empty_object_t it first calls create_object_implicitly() — mutating the
value into an empty Object — and then (falling through to the object_t
case) returns a proxy bound to this value and the name; on object_t it
returns the proxy directly; on any other tag it throws
runtime_error("Not an object").  The result is the parent value as it
stands after the subscript expression itself was evaluated (the proxy
holds a reference to it). -/
def subscriptName (v : JValue) (name : String) : Except JErr JValue :=
  match v with
  | .emptyObject => .ok (create_object_implicitly v)
  | .object ms =>
      let _ := name
      .ok (.object ms)
  | _ => .error .typeMismatch

/-- The value json_proxy::evaluate_with_default inserts for an absent key:
object(val.object_value().get_allocator()) passed through
basic_json(object&&), i.e. an object_t-tagged value holding an empty
container. -/
def insertedDefaultEntry : JValue := .object []

/-- json_proxy::evaluate_with_default() for a proxy whose parent has
already evaluated (with default) to val: val.find(name_) — which on
empty_object_t returns the end sentinel and on a non-object tag throws —
and, when the key is absent, val.set(val.members().begin(), name_,
object(allocator)), promoting an empty_object_t parent to object_t and
inserting an empty Object entry for the key.  Returns the updated parent
together with the entry's value (it->value()). -/
def proxyEvaluateWithDefault (val : JValue) (name : String) :
    Except JErr (JValue × JValue) :=
  match val with
  | .emptyObject =>
      .ok (.object (objSet [] name insertedDefaultEntry), insertedDefaultEntry)
  | .object ms =>
      match objFind ms name with
      | some child => .ok (.object ms, child)
      | none =>
          .ok (.object (objSet ms name insertedDefaultEntry), insertedDefaultEntry)
  | _ => .error .typeMismatch

mutual

/-- variant::operator==.  Numeric tags in any combination compare by
converted value: int64/uint64 comparisons go through the C++ usual
arithmetic conversion to uint64 (both sides taken mod 2^64),
integer/double comparisons through conversion to double (exact in the
rational model).  Otherwise differing tags are unequal; bool compares its
payload, null and empty-object compare by tag alone, the two string
representations compare length-then-content against the same
representation, arrays and objects compare their ordered entries
recursively, and any_t falls through to false. -/
def jeq : JValue → JValue → Bool
  | .integer x, .integer y => x == y
  | .integer x, .uinteger y => (Int.emod x (2 ^ 64)).toNat == y % 2 ^ 64
  | .integer x, .double q => (x : ℚ) == q
  | .uinteger x, .integer y => x % 2 ^ 64 == (Int.emod y (2 ^ 64)).toNat
  | .uinteger x, .uinteger y => x == y
  | .uinteger x, .double q => (x : ℚ) == q
  | .double p, .integer y => p == (y : ℚ)
  | .double p, .uinteger y => p == (y : ℚ)
  | .double p, .double q => p == q
  | .boolean a, .boolean b => a == b
  | .null, .null => true
  | .emptyObject, .emptyObject => true
  | .smallString a, .smallString b => a == b
  | .string a, .string b => a == b
  | .array xs, .array ys => jeqList xs ys
  | .object ms, .object ns => jeqMembers ms ns
  | _, _ => false

/-- Structural equality of the external array container: ordered,
element-wise variant equality. -/
def jeqList : List JValue → List JValue → Bool
  | [], [] => true
  | x :: xs, y :: ys => jeq x y && jeqList xs ys
  | _, _ => false

/-- Structural equality of the external object container: ordered,
member-wise name and variant-value equality. -/
def jeqMembers : List (String × JValue) → List (String × JValue) → Bool
  | [], [] => true
  | (k, v) :: ms, (l, w) :: ns => k == l && jeq v w && jeqMembers ms ns
  | _, _ => false

end

/-!
Allocation-aware refinement of the variant.  To reason about heap
ownership (deep copy versus sharing) every heap payload — the
create_string_data block of a string_t, the create_instance-allocated
array, object and any payloads — carries the identifier of its allocation;
an allocator state is a counter of the next unused identifier.  Erasing
the identifiers recovers the content-level JValue model above.
-/

/-- The variant with explicit heap-allocation identifiers on the four
heap-backed payloads (string_t, array_t, object_t, any_t).  Simple tags
live inline in the union and carry no identifier. -/
inductive MValue where
  | null
  | emptyObject
  | boolean (b : Bool)
  | integer (i : Int)
  | uinteger (u : Nat)
  | double (q : ℚ)
  | smallString (s : List Char)
  | heapString (a : Nat) (s : List Char)
  | array (a : Nat) (xs : List MValue)
  | object (a : Nat) (ms : List (String × MValue))
  | anyVal (a : Nat)
deriving Repr, Inhabited

/-- The tag of an allocation-aware value. -/
def mtypeOf : MValue → ValueType
  | .null => .null_t
  | .emptyObject => .empty_object_t
  | .boolean _ => .bool_t
  | .integer _ => .integer_t
  | .uinteger _ => .uinteger_t
  | .double _ => .double_t
  | .smallString _ => .small_string_t
  | .heapString _ _ => .string_t
  | .array _ _ => .array_t
  | .object _ _ => .object_t
  | .anyVal _ => .any_t

mutual

/-- variant::init_variant(var) under an allocation counter: simple tags
copy bits inline; string_t allocates a fresh block via create_string_data
and copies the characters; array_t and object_t allocate the container
via create_instance and then copy-construct every child element (the
container copy constructor invokes the element variant copy constructor,
which is init_variant again); any_t clones the type-erased box into a
fresh allocation.  Returns the constructed value and the next unused
allocation identifier. -/
def initVariant : MValue → Nat → MValue × Nat
  | .null, n => (.null, n)
  | .emptyObject, n => (.emptyObject, n)
  | .boolean b, n => (.boolean b, n)
  | .integer i, n => (.integer i, n)
  | .uinteger u, n => (.uinteger u, n)
  | .double q, n => (.double q, n)
  | .smallString s, n => (.smallString s, n)
  | .heapString _ s, n => (.heapString n s, n + 1)
  | .array _ xs, n =>
      let p := initList xs (n + 1)
      (.array n p.1, p.2)
  | .object _ ms, n =>
      let p := initMembers ms (n + 1)
      (.object n p.1, p.2)
  | .anyVal _, n => (.anyVal n, n + 1)

/-- Element-wise copy of an array container's contents. -/
def initList : List MValue → Nat → List MValue × Nat
  | [], n => ([], n)
  | x :: xs, n =>
      let hd := initVariant x n
      let tl := initList xs hd.2
      (hd.1 :: tl.1, tl.2)

/-- Member-wise copy of an object container's contents. -/
def initMembers : List (String × MValue) → Nat → List (String × MValue) × Nat
  | [], n => ([], n)
  | (k, v) :: ms, n =>
      let hd := initVariant v n
      let tl := initMembers ms hd.2
      ((k, hd.1) :: tl.1, tl.2)

end

mutual

/-- Identifiers of every heap allocation owned by a value, root first. -/
def idsOf : MValue → List Nat
  | .heapString a _ => [a]
  | .array a xs => a :: idsOfList xs
  | .object a ms => a :: idsOfMembers ms
  | .anyVal a => [a]
  | _ => []

/-- Allocation identifiers owned by an array container's elements. -/
def idsOfList : List MValue → List Nat
  | [] => []
  | x :: xs => idsOf x ++ idsOfList xs

/-- Allocation identifiers owned by an object container's members. -/
def idsOfMembers : List (String × MValue) → List Nat
  | [] => []
  | (_, v) :: ms => idsOf v ++ idsOfMembers ms

end

mutual

/-- Content of an allocation-aware value: dropping the identifiers
recovers the plain variant model. -/
def eraseIds : MValue → JValue
  | .null => .null
  | .emptyObject => .emptyObject
  | .boolean b => .boolean b
  | .integer i => .integer i
  | .uinteger u => .uinteger u
  | .double q => .double q
  | .smallString s => .smallString s
  | .heapString _ s => .string s
  | .array _ xs => .array (eraseIdsList xs)
  | .object _ ms => .object (eraseIdsMembers ms)
  | .anyVal _ => .anyVal

/-- Content of an array container's elements. -/
def eraseIdsList : List MValue → List JValue
  | [] => []
  | x :: xs => eraseIds x :: eraseIdsList xs

/-- Content of an object container's members. -/
def eraseIdsMembers : List (String × MValue) → List (String × JValue)
  | [] => []
  | (k, v) :: ms => (k, eraseIds v) :: eraseIdsMembers ms

end

mutual

/-- A store write through the heap pointer with allocation identifier
target: every node of the tree whose allocation is target is replaced by
repl.  A value whose identifier set avoids target is untouched by such a
write — this is how mutations performed through one tree's pointers act
on another tree sharing (or, after a deep copy, not sharing) the heap. -/
def writeAt (target : Nat) (repl : MValue) : MValue → MValue
  | .heapString a s => if a = target then repl else .heapString a s
  | .array a xs =>
      if a = target then repl else .array a (writeAtList target repl xs)
  | .object a ms =>
      if a = target then repl else .object a (writeAtMembers target repl ms)
  | .anyVal a => if a = target then repl else .anyVal a
  | v => v

/-- The write mapped across an array container's elements. -/
def writeAtList (target : Nat) (repl : MValue) : List MValue → List MValue
  | [] => []
  | x :: xs => writeAt target repl x :: writeAtList target repl xs

/-- The write mapped across an object container's members. -/
def writeAtMembers (target : Nat) (repl : MValue) :
    List (String × MValue) → List (String × MValue)
  | [] => []
  | (k, v) :: ms => (k, writeAt target repl v) :: writeAtMembers target repl ms

end

/-- variant::operator=(const variant& val) for this != &val: when both
sides hold simple tags the type, length byte and union bits are copied
directly (no allocation); otherwise the old payload is destroyed as
needed and init_variant(val) rebuilds this from val, deep-copying every
heap payload into fresh allocations. -/
def variantCopyAssign (self val : MValue) (n : Nat) : MValue × Nat :=
  if is_simple (mtypeOf self) && is_simple (mtypeOf val) then (val, n)
  else initVariant val n

mutual

/-- True when no node of the value carries the type-erased any_t tag
(whose operator== is unconditionally false). -/
def noAny : MValue → Bool
  | .anyVal _ => false
  | .array _ xs => noAnyList xs
  | .object _ ms => noAnyMembers ms
  | _ => true

/-- noAny across an array container's elements. -/
def noAnyList : List MValue → Bool
  | [] => true
  | x :: xs => noAny x && noAnyList xs

/-- noAny across an object container's members. -/
def noAnyMembers : List (String × MValue) → Bool
  | [] => true
  | (_, v) :: ms => noAny v && noAnyMembers ms

end

/-!
Source layer (include/jsoncons/source.hpp).  Each source is a cursor over
a fixed sequence; read returns the units written into the caller's buffer
together with the advanced state, so "written" makes the memory footprint
of the call explicit.
-/

/-- string_source<CharT>: three pointers data_, current_, end_ over
caller-owned memory, modelled as the fixed sequence data_..end_ plus the
cursor offset current_ - data_, which never passes end_. -/
structure StringSource where
  data : List Char
  cur : Nat
  hcur : cur ≤ data.length

/-- string_source constructed over a sequence: data_ = current_ = s.data(),
end_ = s.data() + s.size(). -/
def stringSourceNew (s : List Char) : StringSource :=
  ⟨s, 0, Nat.zero_le _⟩

/-- string_source::eof(): current_ == end_. -/
def ssEof (s : StringSource) : Bool := s.cur == s.data.length

/-- string_source::position(): (current_ - data_)/sizeof(value_type) + 1.
The pointer difference is already a unit count, so for the single-byte
instantiation this is the consumed count divided by charSize = 1, plus
one. -/
def ssPosition (s : StringSource) : Nat := s.cur / charSize + 1

/-- Units a string_source::read or ignore of the given count consumes:
(end_ - current_) < count clamps to the remainder, else the full count. -/
def ssConsume (s : StringSource) (count : Nat) : Nat :=
  min (s.data.length - s.cur) count

/-- string_source::read(p, length): copies len = min(remaining, length)
units into the caller's buffer and advances current_ by len; returns the
units written and the new state. -/
def ssRead (s : StringSource) (length : Nat) : List Char × StringSource :=
  let len := ssConsume s length
  ((s.data.drop s.cur).take len,
   ⟨s.data, s.cur + len, by
      have h1 : ssConsume s length ≤ s.data.length - s.cur := Nat.min_le_left _ _
      have h2 := s.hcur
      omega⟩)

/-- string_source::ignore(count): advances current_ by
min(remaining, count). -/
def ssIgnore (s : StringSource) (count : Nat) : StringSource :=
  ⟨s.data, s.cur + ssConsume s count, by
    have h1 : ssConsume s count ≤ s.data.length - s.cur := Nat.min_le_left _ _
    have h2 := s.hcur
    omega⟩

/-- bytes_source: the byte-oriented zero-copy view, identical cursor
discipline to string_source but over uint8_t units. -/
structure BytesSource where
  data : List Nat
  cur : Nat
  hcur : cur ≤ data.length

/-- bytes_source constructed over a byte sequence. -/
def bytesSourceNew (s : List Nat) : BytesSource :=
  ⟨s, 0, Nat.zero_le _⟩

/-- bytes_source::eof(): current_ == end_. -/
def bsEof (s : BytesSource) : Bool := s.cur == s.data.length

/-- bytes_source::position(): current_ - data_ + 1. -/
def bsPosition (s : BytesSource) : Nat := s.cur + 1

/-- Units a bytes_source::read or ignore of the given count consumes. -/
def bsConsume (s : BytesSource) (count : Nat) : Nat :=
  min (s.data.length - s.cur) count

/-- bytes_source::read(p, length): copies len = min(remaining, length)
bytes and advances the cursor. -/
def bsRead (s : BytesSource) (length : Nat) : List Nat × BytesSource :=
  let len := bsConsume s length
  ((s.data.drop s.cur).take len,
   ⟨s.data, s.cur + len, by
      have h1 : bsConsume s length ≤ s.data.length - s.cur := Nat.min_le_left _ _
      have h2 := s.hcur
      omega⟩)

/-- bytes_source::ignore(count): advances the cursor by
min(remaining, count). -/
def bsIgnore (s : BytesSource) (count : Nat) : BytesSource :=
  ⟨s.data, s.cur + bsConsume s count, by
    have h1 : bsConsume s count ≤ s.data.length - s.cur := Nat.min_le_left _ _
    have h2 := s.hcur
    omega⟩

/-- iterator_source<IteratorT>: the pair (current_, end_) modelled as the
remaining element sequence, plus the position_ counter (which starts at
0 on construction). -/
structure IteratorSource (α : Type) where
  rest : List α
  pos : Nat

/-- iterator_source constructed from first/last: position_(0). -/
def iteratorSourceNew (xs : List α) : IteratorSource α :=
  ⟨xs, 0⟩

/-- iterator_source::eof(): !(current_ != end_). -/
def itEof (s : IteratorSource α) : Bool := s.rest.isEmpty

/-- iterator_source::position(): position_. -/
def itPosition (s : IteratorSource α) : Nat := s.pos

/-- iterator_source::ignore(count): single-step loop while count-- > 0 &&
current_ != end_, incrementing position_ and current_ together. -/
def itIgnore (s : IteratorSource α) (count : Nat) : IteratorSource α :=
  let k := min count s.rest.length
  ⟨s.rest.drop k, s.pos + k⟩

/-- iterator_source::read(data, length), the element-by-element overload
(also the shape of the random-access fast path): writes while
p < data + length and current_ != end_, then advances position_ by the
count written; returns (units written, returned count, new state). -/
def itRead (s : IteratorSource α) (length : Nat) :
    List α × Nat × IteratorSource α :=
  let count := min length s.rest.length
  (s.rest.take count, count, ⟨s.rest.drop count, s.pos + count⟩)

/-- iterator_source::read(data, length), the non-random-access overload:
computes count = min(length, distance(current_, end_)) but then performs
std::copy(current_, end_, data), writing every remaining element into the
caller's buffer before advancing current_ and position_ by count and
returning count.  The first component is exactly the units the call
writes into memory starting at data. -/
def itReadFallback (s : IteratorSource α) (length : Nat) :
    List α × Nat × IteratorSource α :=
  let count := min length s.rest.length
  (s.rest, count, ⟨s.rest.drop count, s.pos + count⟩)

/-- binary_iterator_source<IteratorT>: same cursor and position layout as
iterator_source with value_type fixed to uint8_t. -/
structure BinaryIteratorSource where
  rest : List Nat
  pos : Nat

/-- binary_iterator_source constructed from first/last: position_(0). -/
def binaryIteratorSourceNew (xs : List Nat) : BinaryIteratorSource :=
  ⟨xs, 0⟩

/-- binary_iterator_source::read, the random-access overload: writes
min(length, remaining) bytes element by element. -/
def bitRead (s : BinaryIteratorSource) (length : Nat) :
    List Nat × Nat × BinaryIteratorSource :=
  let count := min length s.rest.length
  (s.rest.take count, count, ⟨s.rest.drop count, s.pos + count⟩)

/-- binary_iterator_source::read, the non-random-access overload: computes
count = min(length, distance(current_, end_)) but performs
std::copy(current_, end_, data), writing every remaining byte into the
caller's buffer, then advances by count and returns count. -/
def bitReadFallback (s : BinaryIteratorSource) (length : Nat) :
    List Nat × Nat × BinaryIteratorSource :=
  let count := min length s.rest.length
  (s.rest, count, ⟨s.rest.drop count, s.pos + count⟩)

/-- stream_source<CharT>: the buffered stream variant.  The wrapped
istream is modelled as the sequence of units its streambuf will still
deliver (upstream) plus its eofbit; transport exceptions are outside this
pure model, so the catch branches that fold them into badbit never fire.
buf holds buffer_data_[0 .. buffer_length_), pos is position_, eofFlag is
eof_ and bufCap is buffer_.size(). -/
structure StreamSource where
  upstream : List Char
  streamEof : Bool
  bufCap : Nat
  buf : List Char
  pos : Nat
  eofFlag : Bool

/-- stream_source(is, buf_size): position_(0), buffer_length_(0),
eof_(false), over a freshly opened stream. -/
def streamSourceNew (contents : List Char) (bufSize : Nat) : StreamSource :=
  ⟨contents, false, bufSize, [], 0, false⟩

/-- stream_source::eof(): the eof_ flag. -/
def stPosition (s : StreamSource) : Nat := s.pos

/-- stream_source::fill_buffer(): if the stream already reports eof, mark
eof_ and empty the buffer; otherwise sgetn up to buffer capacity,
setting the stream's eofbit when the fill came up short. -/
def fillBuffer (s : StreamSource) : StreamSource :=
  if s.streamEof then { s with eofFlag := true, buf := [] }
  else
    let count := min s.bufCap s.upstream.length
    { s with buf := s.upstream.take count,
             upstream := s.upstream.drop count,
             streamEof := s.streamEof || count < s.bufCap }

/-- stream_source::read(p, length): serve len = min(buffer_length_,
length) units from the buffer (advancing position_ by len); if the
remainder is zero return; if the remainder is smaller than the buffer
capacity refill once and serve from the new buffer contents; otherwise
bypass the buffer: return 0 if the stream is already at eof (the units
already copied stay in the caller's buffer and position_ keeps its
advance), else sgetn the remainder directly, setting eofbit on a short
transfer.  Returns (units written, returned count, new state). -/
def stRead (s : StreamSource) (length : Nat) :
    List Char × Nat × StreamSource :=
  let len := min s.buf.length length
  let out1 := s.buf.take len
  let s1 : StreamSource := { s with buf := s.buf.drop len, pos := s.pos + len }
  if length - len = 0 then (out1, len, s1)
  else if length - len < s.bufCap then
    let s2 := fillBuffer s1
    if 0 < s2.buf.length then
      let len2 := min s2.buf.length (length - len)
      (out1 ++ s2.buf.take len2, len + len2,
       { s2 with buf := s2.buf.drop len2, pos := s2.pos + len2 })
    else (out1, len, s2)
  else
    if s1.streamEof then (out1, 0, { s1 with eofFlag := true, buf := [] })
    else
      let count := min (length - len) s1.upstream.length
      (out1 ++ s1.upstream.take count, len + count,
       { s1 with upstream := s1.upstream.drop count,
                 streamEof := s1.streamEof || count < length - len,
                 pos := s1.pos + count })

/-- The refill loop of stream_source::ignore: while units remain to be
discarded, fill_buffer; stop when the buffer stays empty, else discard
min(buffer_length_, remaining) and continue.  Returns the final state and
the units discarded by the loop. -/
def stIgnoreLoop (s : StreamSource) (rem : Nat) : StreamSource × Nat :=
  if _hr : rem = 0 then (s, 0)
  else
    let s1 := fillBuffer s
    if h : s1.buf.length = 0 then (s1, 0)
    else
      let p := stIgnoreLoop
        { s1 with pos := s1.pos + min s1.buf.length rem,
                  buf := s1.buf.drop (min s1.buf.length rem) }
        (rem - min s1.buf.length rem)
      (p.1, min s1.buf.length rem + p.2)
termination_by rem
decreasing_by
  have hb : 1 ≤ (fillBuffer s).buf.length := Nat.one_le_iff_ne_zero.mpr h
  omega

/-- stream_source::ignore(length): first discard from the current buffer
contents, then run the refill loop for the remainder.  Returns the final
state and the total units discarded. -/
def stIgnore (s : StreamSource) (length : Nat) : StreamSource × Nat :=
  let len := min s.buf.length length
  let s1 : StreamSource := { s with pos := s.pos + len, buf := s.buf.drop len }
  let p := stIgnoreLoop s1 (length - len)
  (p.1, len + p.2)

/-- An operation of the common source contract exercised by the position
claims: a read of n units into a caller buffer or an ignore of n units. -/
inductive SrcOp where
  | read (n : Nat)
  | ignore (n : Nat)

/-- One operation on a string_source, returning the new state and the
units the operation consumed. -/
def ssStep (s : StringSource) : SrcOp → StringSource × Nat
  | .read n => ((ssRead s n).2, (ssRead s n).1.length)
  | .ignore n => (ssIgnore s n, ssConsume s n)

/-- A sequence of operations on a string_source, returning the final
state and the total units consumed. -/
def ssRun (s : StringSource) : List SrcOp → StringSource × Nat
  | [] => (s, 0)
  | op :: ops =>
      let p := ssStep s op
      let q := ssRun p.1 ops
      (q.1, p.2 + q.2)

/-- One operation on a bytes_source, returning the new state and the
units consumed. -/
def bsStep (s : BytesSource) : SrcOp → BytesSource × Nat
  | .read n => ((bsRead s n).2, (bsRead s n).1.length)
  | .ignore n => (bsIgnore s n, bsConsume s n)

/-- A sequence of operations on a bytes_source. -/
def bsRun (s : BytesSource) : List SrcOp → BytesSource × Nat
  | [] => (s, 0)
  | op :: ops =>
      let p := bsStep s op
      let q := bsRun p.1 ops
      (q.1, p.2 + q.2)

/-- One operation on an iterator_source (element-by-element read
overload), returning the new state and the units consumed. -/
def itStep (s : IteratorSource α) : SrcOp → IteratorSource α × Nat
  | .read n => ((itRead s n).2.2, (itRead s n).1.length)
  | .ignore n => (itIgnore s n, min n s.rest.length)

/-- A sequence of operations on an iterator_source. -/
def itRun (s : IteratorSource α) : List SrcOp → IteratorSource α × Nat
  | [] => (s, 0)
  | op :: ops =>
      let p := itStep s op
      let q := itRun p.1 ops
      (q.1, p.2 + q.2)

/-- One operation on a stream_source, returning the new state and the
units consumed: for a read, the units actually written into the caller's
buffer; for an ignore, the units discarded. -/
def stStep (s : StreamSource) : SrcOp → StreamSource × Nat
  | .read n => ((stRead s n).2.2, (stRead s n).1.length)
  | .ignore n => stIgnore s n

/-- A sequence of operations on a stream_source. -/
def stRun (s : StreamSource) : List SrcOp → StreamSource × Nat
  | [] => (s, 0)
  | op :: ops =>
      let p := stStep s op
      let q := stRun p.1 ops
      (q.1, p.2 + q.2)

/-- source_reader::max_buffer_length, the 16384-unit chunk bound. -/
def maxBufferLength : Nat := 16384

/-- The chunk loop of source_reader::read on the contiguous fast path,
instantiated with a string_source and a vector-like container: while the
next chunk size n = min(max_buffer_length, unread) is positive and the
source is not at eof, the container is grown by the full chunk
(v.resize(v.size() + n) appends n value-initialized units) and the chunk
is read straight into the new region, overwriting the first actual units
and leaving the remaining n - actual default units in place.  Returns the
final source, container and unread count. -/
def sourceReaderLoop (src : StringSource) (v : List Char) (unread : Nat) :
    StringSource × List Char × Nat :=
  if h : 0 < min maxBufferLength unread ∧ ssEof src = false then
    sourceReaderLoop (ssRead src (min maxBufferLength unread)).2
      (v ++ (ssRead src (min maxBufferLength unread)).1 ++
        List.replicate (min maxBufferLength unread -
          (ssRead src (min maxBufferLength unread)).1.length) (Char.ofNat 0))
      (unread - (ssRead src (min maxBufferLength unread)).1.length)
  else (src, v, unread)
termination_by unread
decreasing_by
  have hc := src.hcur
  have hne : src.cur ≠ src.data.length := by
    intro hEq
    simp [ssEof, hEq] at h
  have hlen : (ssRead src (min maxBufferLength unread)).1.length =
      min (src.data.length - src.cur) (min maxBufferLength unread) := by
    simp [ssRead, ssConsume]
  omega

/-- source_reader::read(source, v, length) on the contiguous fast path:
runs the chunk loop starting from unread = length and returns
length - unread, the units actually transferred. -/
def sourceReaderRead (src : StringSource) (v : List Char) (length : Nat) :
    StringSource × List Char × Nat :=
  let p := sourceReaderLoop src v length
  (p.1, p.2.1, length - p.2.2)

/-- variant(const string_type&, const Alloc&) in the allocation-aware
model: above the small-string capacity, create_string_data obtains a
fresh heap block and the counter advances; at or below it the characters
are copied inline and no allocation happens. -/
def variantOfStringAlloc (s : List Char) (n : Nat) : MValue × Nat :=
  if s.length > small_string_capacity then (.heapString n s, n + 1)
  else (.smallString s, n)

/-- A concrete allocation-aware value used to instantiate the deep-copy
theorem: an array at allocation 0 holding an inline integer and a heap
string at allocation 1. -/
def sampleHeapValue : MValue :=
  .array 0 [.integer 1, .heapString 1 ['h', 'i']]

/-!
Theorems.  Each claim of the specification is settled below; general
supporting lemmas come first.
-/

/-- Looking a key up after objSet inserted or replaced it yields the
inserted value. -/
theorem objFind_objSet (ms : List (String × JValue)) (name : String)
    (v : JValue) : objFind (objSet ms name v) name = some v := by
  induction ms with
  | nil => simp [objSet, objFind]
  | cons hd tl ih =>
      obtain ⟨k, w⟩ := hd
      by_cases hk : k = name
      · simp [objSet, hk, objFind]
      · simp [objSet, hk, objFind, ih]

/-- C1 (corrected): move construction does leave the moved-from variant
with the null_t tag, but move assignment is a swap — the moved-from
source receives the target's previous contents (including any heap
payload the target owned), so it is null only when the target was. -/
theorem c1_move_construct_nulls_and_move_assign_swaps :
    (∀ v : JValue, variantMoveConstruct v = (v, JValue.null) ∧
      is_null (variantMoveConstruct v).2 = true) ∧
    (∀ w v : JValue, variantMoveAssign w v = (v, w) ∧
      is_null (variantMoveAssign w v).2 = is_null w) := by
  exact ⟨fun v => ⟨rfl, rfl⟩, fun w v => ⟨rfl, rfl⟩⟩

/-- C1 counterexample: after w = move(v) with w previously holding the
integer 7 and v a boolean, the moved-from v holds the integer 7 — its
is_null() is false — and when w previously owned a heap array, the
moved-from v ends up owning that heap payload. -/
theorem c1_counterexample :
    is_null (variantMoveAssign (JValue.integer 7) (JValue.boolean true)).2
      = false ∧
    (variantMoveAssign (JValue.array [JValue.integer 1]) JValue.null).2
      = JValue.array [JValue.integer 1] := by
  exact ⟨rfl, rfl⟩

/-- C2 (corrected): the no-argument constructors set the empty_object_t
tag, not null_t, so is_null() on a default-constructed value is false;
the null_t tag comes from the null_type constructor. -/
theorem c2_default_constructor_gives_empty_object :
    typeOf basicJsonDefault = ValueType.empty_object_t ∧
    is_null basicJsonDefault = false ∧
    is_null variantOfNull = true := by
  decide

/-- C2 counterexample: is_null() on a default-constructed value
evaluates to false, refuting the claim that the default tag is Null. -/
theorem c2_counterexample : is_null basicJsonDefault = false := by
  decide

/-- C3 (corrected): when a write-style operation reaches a proxy whose
key is absent from the object-tagged parent, evaluate_with_default
inserts an object_t-tagged value holding an empty container — an empty
Object, not Null — and the write then proceeds on that entry. -/
theorem c3_absent_key_inserts_empty_object
    (ms : List (String × JValue)) (name : String)
    (habsent : objFind ms name = none) :
    proxyEvaluateWithDefault (JValue.object ms) name =
      Except.ok (JValue.object (objSet ms name insertedDefaultEntry),
        insertedDefaultEntry) ∧
    objFind (objSet ms name insertedDefaultEntry) name =
      some (JValue.object []) ∧
    typeOf insertedDefaultEntry = ValueType.object_t := by
  refine ⟨?_, ?_, rfl⟩
  · simp [proxyEvaluateWithDefault, habsent]
  · exact objFind_objSet ms name insertedDefaultEntry

/-- C3 witness: the corrected behaviour at the concrete parent holding no
members and the key x. -/
theorem c3_witness :
    proxyEvaluateWithDefault (JValue.object []) "x" =
      Except.ok (JValue.object [("x", JValue.object [])], JValue.object []) ∧
    objFind (objSet [] "x" insertedDefaultEntry) "x" =
      some (JValue.object []) := by
  have h := c3_absent_key_inserts_empty_object [] "x" (by simp [objFind])
  refine ⟨?_, h.2.1⟩
  have h1 := h.1
  simpa [objSet, insertedDefaultEntry] using h1

/-- C3 counterexample: at the empty object parent and key x, the entry
inserted before the write proceeds is the empty Object value, which is
not Null. -/
theorem c3_counterexample :
    proxyEvaluateWithDefault (JValue.object []) "x" =
      Except.ok (JValue.object [("x", JValue.object [])], JValue.object []) ∧
    insertedDefaultEntry ≠ JValue.null := by
  refine ⟨rfl, ?_⟩
  simp [insertedDefaultEntry]

/-- C4 (corrected): at(name) on an EmptyObject value fails with
out_of_range and performs no mutation; but evaluating the non-const
subscript r[name] on an EmptyObject r first runs
create_object_implicitly, promoting r to an Object with an empty
container even though only a read follows — the subsequent proxy read
then still fails with out_of_range, and r's tag afterwards is object_t,
not empty_object_t. -/
theorem c4_read_paths_on_empty_object (name : String) :
    atName JValue.emptyObject name = Except.error JErr.outOfRange ∧
    subscriptName JValue.emptyObject name = Except.ok (JValue.object []) ∧
    atName (JValue.object []) name = Except.error JErr.outOfRange ∧
    typeOf (create_object_implicitly JValue.emptyObject)
      = ValueType.object_t := by
  exact ⟨rfl, rfl, rfl, rfl⟩

/-- C4 counterexample: forming r[x] on a non-const EmptyObject r yields
the promoted parent state Object(empty), whose tag is no longer
empty_object_t — the failed read does mutate r. -/
theorem c4_counterexample :
    subscriptName JValue.emptyObject "x" = Except.ok (JValue.object []) ∧
    typeOf (JValue.object []) ≠ ValueType.empty_object_t := by
  exact ⟨rfl, by decide⟩

/-- C5 (corrected): on a null_t value as_integer and as_uinteger throw
the type-mismatch runtime error, but as_double silently returns
quiet_NaN() instead of failing. -/
theorem c5_numeric_accessors_on_null :
    as_integer JValue.null = Except.error JErr.typeMismatch ∧
    as_uinteger JValue.null = Except.error JErr.typeMismatch ∧
    as_double JValue.null = Except.ok DoubleVal.nan := by
  exact ⟨rfl, rfl, rfl⟩

/-- C5 counterexample: as_double on a null value returns the NaN result
rather than a type-mismatch failure. -/
theorem c5_counterexample :
    as_double JValue.null = Except.ok DoubleVal.nan ∧
    as_double JValue.null ≠ Except.error JErr.typeMismatch := by
  refine ⟨rfl, ?_⟩
  intro h
  simp [as_double] at h

/-- C7 (confirmed): a string of exactly small_string_capacity units
(7 single-byte characters) is stored inline under the small_string_t tag
with no heap allocation (the allocation counter does not move and the
value owns no allocation identifiers), a string of capacity + 1 units is
heap-stored under string_t with one fresh allocation, and as_string()
returns exactly the original content for both representations. -/
theorem c7_small_string_boundary (s : List Char) (n : Nat) :
    (s.length = small_string_capacity →
      variantOfString s = JValue.smallString s ∧
      variantOfStringAlloc s n = (MValue.smallString s, n) ∧
      idsOf (variantOfStringAlloc s n).1 = [] ∧
      as_string (variantOfString s) = some s) ∧
    (s.length = small_string_capacity + 1 →
      variantOfString s = JValue.string s ∧
      variantOfStringAlloc s n = (MValue.heapString n s, n + 1) ∧
      idsOf (variantOfStringAlloc s n).1 = [n] ∧
      as_string (variantOfString s) = some s) := by
  constructor
  · intro h
    have hle : ¬ s.length > small_string_capacity := by omega
    refine ⟨by simp [variantOfString, hle], by simp [variantOfStringAlloc, hle],
      ?_, by simp [variantOfString, hle, as_string]⟩
    simp [variantOfStringAlloc, hle, idsOf]
  · intro h
    have hgt : s.length > small_string_capacity := by omega
    refine ⟨by simp [variantOfString, hgt], by simp [variantOfStringAlloc, hgt],
      ?_, by simp [variantOfString, hgt, as_string]⟩
    simp [variantOfStringAlloc, hgt, idsOf]

/-- C7 witness: the boundary at the concrete 7-character and 8-character
strings of letter a. -/
theorem c7_witness :
    variantOfString (List.replicate 7 'a')
      = JValue.smallString (List.replicate 7 'a') ∧
    as_string (variantOfString (List.replicate 7 'a'))
      = some (List.replicate 7 'a') ∧
    variantOfString (List.replicate 8 'a')
      = JValue.string (List.replicate 8 'a') ∧
    as_string (variantOfString (List.replicate 8 'a'))
      = some (List.replicate 8 'a') := by
  have h7 := (c7_small_string_boundary (List.replicate 7 'a') 0).1 (by decide)
  have h8 := (c7_small_string_boundary (List.replicate 8 'a') 0).2 (by decide)
  exact ⟨h7.1, h7.2.2.2, h8.1, h8.2.2.2⟩

/-- C8 (code bug): the element-wise read overloads and the contiguous
sources clamp correctly, but the non-random-access read overloads of
iterator_source and binary_iterator_source perform
std::copy(current_, end_, data), writing every remaining unit into the
caller's buffer: at a three-byte range and a request of one unit, three
units are written past the one-unit buffer while only count = 1 is
returned.  The first conjuncts evaluate the code at that failing input;
the last conjuncts record that the in-bounds overloads write at most the
requested count. -/
theorem c8_fallback_read_overruns_buffer :
    (bitReadFallback (binaryIteratorSourceNew [7, 8, 9]) 1).1 = [7, 8, 9] ∧
    (bitReadFallback (binaryIteratorSourceNew [7, 8, 9]) 1).2.1 = 1 ∧
    1 < (bitReadFallback (binaryIteratorSourceNew [7, 8, 9]) 1).1.length ∧
    (itReadFallback (iteratorSourceNew ['x', 'y', 'z']) 1).1.length = 3 ∧
    (∀ (s : BytesSource) (k : Nat), (bsRead s k).1.length ≤ k) ∧
    (∀ (s : StringSource) (k : Nat), (ssRead s k).1.length ≤ k) ∧
    (∀ (s : BinaryIteratorSource) (k : Nat), (bitRead s k).1.length ≤ k) := by
  refine ⟨rfl, rfl, by decide, rfl, ?_, ?_, ?_⟩
  · intro s k
    simp [bsRead, bsConsume]
  · intro s k
    simp [ssRead, ssConsume]
  · intro s k
    simp [bitRead]

/-- A string_source read delivers exactly the clamped count. -/
theorem ssRead_fst_length (s : StringSource) (n : Nat) :
    (ssRead s n).1.length = ssConsume s n := by
  simp [ssRead, ssConsume]

/-- A bytes_source read delivers exactly the clamped count. -/
theorem bsRead_fst_length (s : BytesSource) (n : Nat) :
    (bsRead s n).1.length = bsConsume s n := by
  simp [bsRead, bsConsume]

/-- One string_source operation advances position() by exactly the units
it consumed. -/
theorem ssStep_position (s : StringSource) (op : SrcOp) :
    ssPosition (ssStep s op).1 = ssPosition s + (ssStep s op).2 := by
  cases op with
  | read n =>
      simp only [ssStep, ssPosition, ssRead, ssConsume, charSize,
        Nat.div_one, List.length_take, List.length_drop]
      omega
  | ignore n =>
      simp only [ssStep, ssIgnore, ssPosition, charSize, Nat.div_one]
      omega

/-- A string_source operation run advances position() by the total units
consumed. -/
theorem ssRun_position (s : StringSource) (ops : List SrcOp) :
    ssPosition (ssRun s ops).1 = ssPosition s + (ssRun s ops).2 := by
  induction ops generalizing s with
  | nil => simp [ssRun]
  | cons op ops ih =>
      simp only [ssRun]
      rw [ih, ssStep_position]
      omega

/-- One bytes_source operation advances position() by exactly the units
it consumed. -/
theorem bsStep_position (s : BytesSource) (op : SrcOp) :
    bsPosition (bsStep s op).1 = bsPosition s + (bsStep s op).2 := by
  cases op with
  | read n =>
      simp only [bsStep, bsPosition, bsRead, bsConsume,
        List.length_take, List.length_drop]
      omega
  | ignore n =>
      simp only [bsStep, bsIgnore, bsPosition]
      omega

/-- A bytes_source operation run advances position() by the total units
consumed. -/
theorem bsRun_position (s : BytesSource) (ops : List SrcOp) :
    bsPosition (bsRun s ops).1 = bsPosition s + (bsRun s ops).2 := by
  induction ops generalizing s with
  | nil => simp [bsRun]
  | cons op ops ih =>
      simp only [bsRun]
      rw [ih, bsStep_position]
      omega

/-- One iterator_source operation advances position_ by exactly the
units it consumed. -/
theorem itStep_position {α : Type} (s : IteratorSource α) (op : SrcOp) :
    itPosition (itStep s op).1 = itPosition s + (itStep s op).2 := by
  cases op with
  | read n =>
      simp [itStep, itRead, itPosition]
  | ignore n =>
      simp [itStep, itIgnore, itPosition]

/-- An iterator_source operation run advances position_ by the total
units consumed. -/
theorem itRun_position {α : Type} (s : IteratorSource α) (ops : List SrcOp) :
    itPosition (itRun s ops).1 = itPosition s + (itRun s ops).2 := by
  induction ops generalizing s with
  | nil => simp [itRun]
  | cons op ops ih =>
      simp only [itRun]
      rw [ih, itStep_position]
      omega

/-- fill_buffer does not touch position_. -/
theorem fillBuffer_pos (s : StreamSource) : (fillBuffer s).pos = s.pos := by
  unfold fillBuffer
  split <;> rfl

/-- stream_source::read advances position_ by exactly the units written
into the caller's buffer (on the buffer-bypass path that hits stream eof
the call returns 0, but the units already served from the buffer stand
and position_ reflects them). -/
theorem stRead_pos (s : StreamSource) (n : Nat) :
    (stRead s n).2.2.pos = s.pos + (stRead s n).1.length := by
  simp only [stRead]
  split
  · simp
  · split
    · split
      · simp [fillBuffer_pos]
        omega
      · simp [fillBuffer_pos]
    · split
      · simp
      · simp
        omega

/-- The stream_source ignore refill loop advances position_ by exactly
the units it discards. -/
theorem stIgnoreLoop_pos (s : StreamSource) (rem : Nat) :
    (stIgnoreLoop s rem).1.pos = s.pos + (stIgnoreLoop s rem).2 := by
  induction rem using Nat.strong_induction_on generalizing s with
  | _ rem ih =>
      rw [stIgnoreLoop]
      by_cases h0 : rem = 0
      · simp [h0]
      · simp only [h0, dite_false]
        by_cases hb : (fillBuffer s).buf.length = 0
        · simp [hb]
          rw [fillBuffer_pos]
        · simp only [hb, dite_false]
          have hlt : rem - min (fillBuffer s).buf.length rem < rem := by
            have h1 : 1 ≤ (fillBuffer s).buf.length :=
              Nat.one_le_iff_ne_zero.mpr hb
            omega
          rw [ih _ hlt]
          simp [fillBuffer_pos]
          omega

/-- stream_source::ignore advances position_ by exactly the units it
discards in total. -/
theorem stIgnore_pos (s : StreamSource) (n : Nat) :
    (stIgnore s n).1.pos = s.pos + (stIgnore s n).2 := by
  unfold stIgnore
  rw [stIgnoreLoop_pos]
  simp
  omega

/-- One stream_source operation advances position_ by exactly the units
it consumed. -/
theorem stStep_position (s : StreamSource) (op : SrcOp) :
    stPosition (stStep s op).1 = stPosition s + (stStep s op).2 := by
  cases op with
  | read n => simp [stStep, stPosition, stRead_pos]
  | ignore n => simp [stStep, stPosition, stIgnore_pos]

/-- A stream_source operation run advances position_ by the total units
consumed. -/
theorem stRun_position (s : StreamSource) (ops : List SrcOp) :
    stPosition (stRun s ops).1 = stPosition s + (stRun s ops).2 := by
  induction ops generalizing s with
  | nil => simp [stRun]
  | cons op ops ih =>
      simp only [stRun]
      rw [ih, stStep_position]
      omega

/-- C9 (corrected): position() is monotonically non-decreasing on every
variant and always advances by exactly the units consumed, but its base
differs: stream_source and iterator_source count from 0 at construction,
while string_source and bytes_source return the consumed count plus one
(their position() is already 1 immediately after construction). -/
theorem c9_position_bases_and_monotonicity :
    (∀ (data : List Char) (ops : List SrcOp),
      ssPosition (ssRun (stringSourceNew data) ops).1
        = 1 + (ssRun (stringSourceNew data) ops).2) ∧
    (∀ (data : List Nat) (ops : List SrcOp),
      bsPosition (bsRun (bytesSourceNew data) ops).1
        = 1 + (bsRun (bytesSourceNew data) ops).2) ∧
    (∀ (α : Type) (xs : List α) (ops : List SrcOp),
      itPosition (itRun (iteratorSourceNew xs) ops).1
        = (itRun (iteratorSourceNew xs) ops).2) ∧
    (∀ (contents : List Char) (bufSize : Nat) (ops : List SrcOp),
      stPosition (stRun (streamSourceNew contents bufSize) ops).1
        = (stRun (streamSourceNew contents bufSize) ops).2) ∧
    (∀ (s : StringSource) (op : SrcOp),
      ssPosition s ≤ ssPosition (ssStep s op).1) ∧
    (∀ (s : BytesSource) (op : SrcOp),
      bsPosition s ≤ bsPosition (bsStep s op).1) ∧
    (∀ (α : Type) (s : IteratorSource α) (op : SrcOp),
      itPosition s ≤ itPosition (itStep s op).1) ∧
    (∀ (s : StreamSource) (op : SrcOp),
      stPosition s ≤ stPosition (stStep s op).1) := by
  refine ⟨?_, ?_, ?_, ?_, ?_, ?_, ?_, ?_⟩
  · intro data ops
    rw [ssRun_position]
    simp [ssPosition, stringSourceNew, charSize]
  · intro data ops
    rw [bsRun_position]
    simp [bsPosition, bytesSourceNew]
  · intro α xs ops
    rw [itRun_position]
    simp [itPosition, iteratorSourceNew]
  · intro contents bufSize ops
    rw [stRun_position]
    simp [stPosition, streamSourceNew]
  · intro s op
    rw [ssStep_position]
    omega
  · intro s op
    rw [bsStep_position]
    omega
  · intro α s op
    rw [itStep_position]
    omega
  · intro s op
    rw [stStep_position]
    omega

/-- C9 counterexample: immediately after construction, before anything
is consumed, string_source::position() and bytes_source::position()
already return 1, not 0. -/
theorem c9_counterexample :
    ssPosition (stringSourceNew ['a', 'b', 'c']) = 1 ∧
    bsPosition (bytesSourceNew [1, 2]) = 1 := by
  exact ⟨rfl, rfl⟩

/-- Two string_source states with the same data and cursor are equal
(the cursor-bound proof is irrelevant). -/
theorem stringSourceEq {d1 d2 : List Char} {c1 c2 : Nat}
    {h1 : c1 ≤ d1.length} {h2 : c2 ≤ d2.length}
    (hd : d1 = d2) (hc : c1 = c2) :
    (⟨d1, c1, h1⟩ : StringSource) = ⟨d2, c2, h2⟩ := by
  subst hd
  subst hc
  rfl

/-- C10 (confirmed): on the contiguous fast path, when the source holds
fewer units than the single chunk the loop requests (data.length < L and
L within the chunk bound), the container is first grown by the full
chunk L, the source delivers only its data.length units, and the loop
then stops at eof: the returned transfer count is data.length, the
container keeps the L - data.length default-initialized trailing units,
and its final size v.length + L strictly exceeds its initial size plus
the returned count. -/
theorem c10_bulk_reader_growth (data v : List Char) (L : Nat)
    (hpos : 0 < data.length) (hlt : data.length < L)
    (hcap : L ≤ maxBufferLength) :
    (sourceReaderRead (stringSourceNew data) v L).2.1
        = v ++ data ++ List.replicate (L - data.length) (Char.ofNat 0) ∧
    (sourceReaderRead (stringSourceNew data) v L).2.2 = data.length ∧
    (sourceReaderRead (stringSourceNew data) v L).2.1.length
        = v.length + L ∧
    v.length + (sourceReaderRead (stringSourceNew data) v L).2.2
        < (sourceReaderRead (stringSourceNew data) v L).2.1.length := by
  have hmin : min maxBufferLength L = L := Nat.min_eq_right hcap
  have h1 : 0 < min maxBufferLength L ∧
      ssEof (stringSourceNew data) = false := by
    constructor
    · omega
    · simp [ssEof, stringSourceNew]
      omega
  have hread : ssRead (stringSourceNew data) (min maxBufferLength L)
      = (data, ⟨data, data.length, le_refl _⟩) := by
    simp only [ssRead, ssConsume, stringSourceNew, List.drop_zero,
      Nat.sub_zero, Nat.zero_add, hmin]
    have hc : min data.length L = data.length :=
      Nat.min_eq_left (Nat.le_of_lt hlt)
    rw [Prod.mk.injEq]
    exact ⟨by rw [hc, List.take_length], stringSourceEq rfl hc⟩
  have hloop : sourceReaderLoop (stringSourceNew data) v L
      = (⟨data, data.length, le_refl _⟩,
         v ++ data ++ List.replicate (L - data.length) (Char.ofNat 0),
         L - data.length) := by
    rw [sourceReaderLoop, dif_pos h1, hread]
    rw [sourceReaderLoop, dif_neg]
    · rw [hmin]
    · intro hcontra
      simp [ssEof] at hcontra
  have hfinal : sourceReaderRead (stringSourceNew data) v L
      = (⟨data, data.length, le_refl _⟩,
         v ++ data ++ List.replicate (L - data.length) (Char.ofNat 0),
         L - (L - data.length)) := by
    unfold sourceReaderRead
    rw [hloop]
  rw [hfinal]
  refine ⟨rfl, by show L - (L - data.length) = data.length; omega, ?_, ?_⟩
  · simp
    omega
  · simp
    omega

/-- C10 witness: the concrete two-character source read with a request
of five units into an initially empty container. -/
theorem c10_witness :
    (sourceReaderRead (stringSourceNew ['a', 'b']) [] 5).2.1
        = ['a', 'b', Char.ofNat 0, Char.ofNat 0, Char.ofNat 0] ∧
    (sourceReaderRead (stringSourceNew ['a', 'b']) [] 5).2.2 = 2 ∧
    (sourceReaderRead (stringSourceNew ['a', 'b']) [] 5).2.1.length = 5 := by
  have h := c10_bulk_reader_growth ['a', 'b'] [] 5 (by decide) (by decide)
    (by decide)
  refine ⟨?_, h.2.1, by simpa using h.2.2.1⟩
  have h1 := h.1
  simpa using h1

mutual

/-- init_variant rebuilds the same content, moves the allocation counter
forward, and every allocation of the rebuilt value is fresh: at least the
starting counter and below the final counter. -/
theorem initVariant_spec (v : MValue) (n : Nat) :
    eraseIds (initVariant v n).1 = eraseIds v ∧
    n ≤ (initVariant v n).2 ∧
    (∀ i ∈ idsOf (initVariant v n).1, n ≤ i ∧ i < (initVariant v n).2) := by
  cases v with
  | null => simp [initVariant, idsOf]
  | emptyObject => simp [initVariant, idsOf]
  | boolean b => simp [initVariant, idsOf]
  | integer i => simp [initVariant, idsOf]
  | uinteger u => simp [initVariant, idsOf]
  | double q => simp [initVariant, idsOf]
  | smallString s => simp [initVariant, idsOf]
  | heapString a s =>
      refine ⟨by simp [initVariant, eraseIds], by simp [initVariant], ?_⟩
      intro i hi
      simp [initVariant, idsOf] at hi
      simp [initVariant]
      omega
  | anyVal a =>
      refine ⟨by simp [initVariant, eraseIds], by simp [initVariant], ?_⟩
      intro i hi
      simp [initVariant, idsOf] at hi
      simp [initVariant]
      omega
  | array a xs =>
      obtain ⟨ih1, ih2, ih3⟩ := initList_spec xs (n + 1)
      refine ⟨by simp [initVariant, eraseIds, ih1], by simp [initVariant]; omega, ?_⟩
      intro i hi
      simp [initVariant, idsOf] at hi
      simp [initVariant]
      cases hi with
      | inl h => omega
      | inr h =>
          have := ih3 i h
          omega
  | object a ms =>
      obtain ⟨ih1, ih2, ih3⟩ := initMembers_spec ms (n + 1)
      refine ⟨by simp [initVariant, eraseIds, ih1], by simp [initVariant]; omega, ?_⟩
      intro i hi
      simp [initVariant, idsOf] at hi
      simp [initVariant]
      cases hi with
      | inl h => omega
      | inr h =>
          have := ih3 i h
          omega

/-- The element-wise copy of an array container, with the same counter
bookkeeping. -/
theorem initList_spec (xs : List MValue) (n : Nat) :
    eraseIdsList (initList xs n).1 = eraseIdsList xs ∧
    n ≤ (initList xs n).2 ∧
    (∀ i ∈ idsOfList (initList xs n).1, n ≤ i ∧ i < (initList xs n).2) := by
  cases xs with
  | nil => simp [initList, idsOfList]
  | cons x xs =>
      obtain ⟨h1, h2, h3⟩ := initVariant_spec x n
      obtain ⟨g1, g2, g3⟩ := initList_spec xs (initVariant x n).2
      refine ⟨by simp [initList, eraseIdsList, h1, g1], by simp [initList]; omega, ?_⟩
      intro i hi
      simp [initList, idsOfList] at hi
      simp [initList]
      cases hi with
      | inl h =>
          have := h3 i h
          omega
      | inr h =>
          have := g3 i h
          omega

/-- The member-wise copy of an object container, with the same counter
bookkeeping. -/
theorem initMembers_spec (ms : List (String × MValue)) (n : Nat) :
    eraseIdsMembers (initMembers ms n).1 = eraseIdsMembers ms ∧
    n ≤ (initMembers ms n).2 ∧
    (∀ i ∈ idsOfMembers (initMembers ms n).1,
      n ≤ i ∧ i < (initMembers ms n).2) := by
  cases ms with
  | nil => simp [initMembers, idsOfMembers]
  | cons m ms =>
      obtain ⟨k, x⟩ := m
      obtain ⟨h1, h2, h3⟩ := initVariant_spec x n
      obtain ⟨g1, g2, g3⟩ := initMembers_spec ms (initVariant x n).2
      refine ⟨by simp [initMembers, eraseIdsMembers, h1, g1],
        by simp [initMembers]; omega, ?_⟩
      intro i hi
      simp [initMembers, idsOfMembers] at hi
      simp [initMembers]
      cases hi with
      | inl h =>
          have := h3 i h
          omega
      | inr h =>
          have := g3 i h
          omega

end

mutual

/-- On any-free values, variant::operator== is reflexive on the content
of a value. -/
theorem jeq_eraseIds_self (v : MValue) (h : noAny v = true) :
    jeq (eraseIds v) (eraseIds v) = true := by
  cases v with
  | null => simp [eraseIds, jeq]
  | emptyObject => simp [eraseIds, jeq]
  | boolean b => simp [eraseIds, jeq]
  | integer i => simp [eraseIds, jeq]
  | uinteger u => simp [eraseIds, jeq]
  | double q => simp [eraseIds, jeq]
  | smallString s => simp [eraseIds, jeq]
  | heapString a s => simp [eraseIds, jeq]
  | anyVal a => simp [noAny] at h
  | array a xs =>
      have ih := jeqList_eraseIds_self xs (by simpa [noAny] using h)
      simp [eraseIds, jeq, ih]
  | object a ms =>
      have ih := jeqMembers_eraseIds_self ms (by simpa [noAny] using h)
      simp [eraseIds, jeq, ih]

/-- Reflexivity of the array-container equality on any-free contents. -/
theorem jeqList_eraseIds_self (xs : List MValue) (h : noAnyList xs = true) :
    jeqList (eraseIdsList xs) (eraseIdsList xs) = true := by
  cases xs with
  | nil => simp [eraseIdsList, jeqList]
  | cons x xs =>
      have hx : noAny x = true := by
        have := h
        simp [noAnyList] at this
        exact this.1
      have hxs : noAnyList xs = true := by
        have := h
        simp [noAnyList] at this
        exact this.2
      have ih1 := jeq_eraseIds_self x hx
      have ih2 := jeqList_eraseIds_self xs hxs
      simp [eraseIdsList, jeqList, ih1, ih2]

/-- Reflexivity of the object-container equality on any-free contents. -/
theorem jeqMembers_eraseIds_self (ms : List (String × MValue))
    (h : noAnyMembers ms = true) :
    jeqMembers (eraseIdsMembers ms) (eraseIdsMembers ms) = true := by
  cases ms with
  | nil => simp [eraseIdsMembers, jeqMembers]
  | cons m ms =>
      obtain ⟨k, x⟩ := m
      have hx : noAny x = true := by
        have := h
        simp [noAnyMembers] at this
        exact this.1
      have hxs : noAnyMembers ms = true := by
        have := h
        simp [noAnyMembers] at this
        exact this.2
      have ih1 := jeq_eraseIds_self x hx
      have ih2 := jeqMembers_eraseIds_self ms hxs
      simp [eraseIdsMembers, jeqMembers, ih1, ih2]

end

mutual

/-- A store write at an allocation identifier the value does not own
leaves the value untouched. -/
theorem writeAt_skips (target : Nat) (r : MValue) (v : MValue)
    (h : target ∉ idsOf v) : writeAt target r v = v := by
  cases v with
  | null => simp [writeAt]
  | emptyObject => simp [writeAt]
  | boolean b => simp [writeAt]
  | integer i => simp [writeAt]
  | uinteger u => simp [writeAt]
  | double q => simp [writeAt]
  | smallString s => simp [writeAt]
  | heapString a s =>
      have ha : ¬ a = target := by
        simp [idsOf] at h
        omega
      simp [writeAt, ha]
  | anyVal a =>
      have ha : ¬ a = target := by
        simp [idsOf] at h
        omega
      simp [writeAt, ha]
  | array a xs =>
      have hmem : ¬ target = a ∧ target ∉ idsOfList xs := by
        simpa [idsOf] using h
      have ih := writeAtList_skips target r xs hmem.2
      have ha : ¬ a = target := fun hEq => hmem.1 hEq.symm
      simp [writeAt, ha, ih]
  | object a ms =>
      have hmem : ¬ target = a ∧ target ∉ idsOfMembers ms := by
        simpa [idsOf] using h
      have ih := writeAtMembers_skips target r ms hmem.2
      have ha : ¬ a = target := fun hEq => hmem.1 hEq.symm
      simp [writeAt, ha, ih]

/-- The write mapped over an array container it does not own. -/
theorem writeAtList_skips (target : Nat) (r : MValue) (xs : List MValue)
    (h : target ∉ idsOfList xs) : writeAtList target r xs = xs := by
  cases xs with
  | nil => simp [writeAtList]
  | cons x xs =>
      have hmem : target ∉ idsOf x ∧ target ∉ idsOfList xs := by
        constructor
        · intro hx
          exact h (by simp [idsOfList, List.mem_append, hx])
        · intro hx
          exact h (by simp [idsOfList, List.mem_append, hx])
      simp [writeAtList, writeAt_skips target r x hmem.1,
        writeAtList_skips target r xs hmem.2]

/-- The write mapped over an object container it does not own. -/
theorem writeAtMembers_skips (target : Nat) (r : MValue)
    (ms : List (String × MValue)) (h : target ∉ idsOfMembers ms) :
    writeAtMembers target r ms = ms := by
  cases ms with
  | nil => simp [writeAtMembers]
  | cons m ms =>
      obtain ⟨k, x⟩ := m
      have hmem : target ∉ idsOf x ∧ target ∉ idsOfMembers ms := by
        constructor
        · intro hx
          exact h (by simp [idsOfMembers, List.mem_append, hx])
        · intro hx
          exact h (by simp [idsOfMembers, List.mem_append, hx])
      simp [writeAtMembers, writeAt_skips target r x hmem.1,
        writeAtMembers_skips target r ms hmem.2]

end

/-- A value with a simple tag owns no heap allocation. -/
theorem idsOf_simple (v : MValue) (h : is_simple (mtypeOf v) = true) :
    idsOf v = [] := by
  cases v <;> simp_all [mtypeOf, is_simple, idsOf]

/-- C6 (corrected): copy construction (init_variant) and copy assignment
are recursive deep copies sharing no heap allocation with the original —
every allocation identifier of the clone is fresh, so a store write
through any pointer the clone owns leaves the original value bit-for-bit
unchanged; the clone's content equals the original's, and it compares
equal under operator== provided the value contains no Any payload (the
any_t comparison is unconditionally false, so a Value holding an Any
payload never compares equal to its own copy). -/
theorem c6_copy_is_deep_and_independent (v : MValue) (n : Nat)
    (hfresh : ∀ i ∈ idsOf v, i < n) :
    eraseIds (initVariant v n).1 = eraseIds v ∧
    (noAny v = true →
      jeq (eraseIds (initVariant v n).1) (eraseIds v) = true) ∧
    (∀ i ∈ idsOf (initVariant v n).1, i ∉ idsOf v) ∧
    (∀ i ∈ idsOf (initVariant v n).1, ∀ r, writeAt i r v = v) ∧
    (∀ w, eraseIds (variantCopyAssign w v n).1 = eraseIds v ∧
      ∀ i ∈ idsOf (variantCopyAssign w v n).1, i ∉ idsOf v) := by
  obtain ⟨he, hn, hids⟩ := initVariant_spec v n
  refine ⟨he, ?_, ?_, ?_, ?_⟩
  · intro hna
    rw [he]
    exact jeq_eraseIds_self v hna
  · intro i hi hmem
    have h1 := (hids i hi).1
    have h2 := hfresh i hmem
    omega
  · intro i hi r
    apply writeAt_skips
    intro hmem
    have h1 := (hids i hi).1
    have h2 := hfresh i hmem
    omega
  · intro w
    by_cases hs : (is_simple (mtypeOf w) && is_simple (mtypeOf v)) = true
    · have hids0 : idsOf v = [] := by
        simp at hs
        exact idsOf_simple v hs.2
      refine ⟨by simp [variantCopyAssign, hs], ?_⟩
      intro i hi
      simp [variantCopyAssign, hs, hids0] at hi
    · refine ⟨by simp [variantCopyAssign, hs, he], ?_⟩
      intro i hi hmem
      simp only [variantCopyAssign, hs, Bool.false_eq_true, if_false] at hi
      have h1 := (hids i hi).1
      have h2 := hfresh i hmem
      omega

/-- C6 witness: the deep copy of the concrete array value with two heap
allocations, cloned with the allocation counter at 2. -/
theorem c6_witness :
    (∀ i ∈ idsOf sampleHeapValue, i < 2) ∧
    eraseIds (initVariant sampleHeapValue 2).1 = eraseIds sampleHeapValue ∧
    (noAny sampleHeapValue = true →
      jeq (eraseIds (initVariant sampleHeapValue 2).1)
        (eraseIds sampleHeapValue) = true) ∧
    (∀ i ∈ idsOf (initVariant sampleHeapValue 2).1,
      i ∉ idsOf sampleHeapValue) := by
  have hfresh : ∀ i ∈ idsOf sampleHeapValue, i < 2 := by decide
  have h := c6_copy_is_deep_and_independent sampleHeapValue 2 hfresh
  exact ⟨hfresh, h.1, h.2.1, h.2.2.1⟩

/-- C6 counterexample: a Value holding an Any payload does not compare
equal to its own copy — operator== on any_t is unconditionally false —
so the claim fails for such values as stated. -/
theorem c6_counterexample :
    jeq (eraseIds (initVariant (MValue.anyVal 0) 1).1)
      (eraseIds (MValue.anyVal 0)) = false := by
  rfl

end Jsoncons
